import Mathlib

/-!
Shallow embedding of the `ts-poc` create-project pipeline (src/src/index.ts).

The program is an Express HTTP handler assembled from three combinators:
`entityAs` (zod body validation), `headerValueByName` (header presence
check) and `completeAsJson` (outcome-to-response writing), wrapping the
domain stub `createProject`.  The embedding models JSON bodies, Node-style
header values (`string | string[]`), the zod schemas
(`z.string().trim().min(1)` for names, `z.string().uuid()` for ids), the
`v4` UUID generator (parametrised by its 16 random bytes) and the random
draw in `createProject` (parametrised by a rational in place of
`Math.random()`).  JavaScript exceptions (a failing `.parse`) are modelled
with `Except`; a handler run ends either in a written response or in a
raised, uncaught error.
-/

namespace TsPoc

/-- JSON values, modelling the parsed request body (`express.json()`). -/
inductive Json where
  | null : Json
  | bool (b : Bool) : Json
  | num (n : Int) : Json
  | str (s : String) : Json
  | arr (xs : List Json) : Json
  | obj (fields : List (String × Json)) : Json
deriving Repr

/-- Node header values: a single text value or an ordered sequence of text
values when the header was repeated (`string | string[]`). -/
inductive HeaderValue where
  | single (s : String) : HeaderValue
  | several (ss : List String) : HeaderValue
deriving Repr, DecidableEq

/-- An incoming HTTP request as the handler sees it: the JSON body and the
headers, keyed by lowercased names as Node normalises them. -/
structure HttpRequest where
  body : Json
  headers : List (String × HeaderValue)

/-- JavaScript `toLowerCase`, character by character. -/
def lowerStr (s : String) : String := ⟨s.data.map Char.toLower⟩

/-- `req.headers[name.toLowerCase()]`. -/
def lookupHeader (req : HttpRequest) (name : String) : Option HeaderValue :=
  req.headers.lookup (lowerStr name)

/-- One zod issue: the path of the offending field and the issue code. -/
structure ZodIssue where
  path : List String
  code : String
deriving Repr, DecidableEq

/-- A zod error is a list of issues. -/
abbrev ZodError := List ZodIssue

/-- Rendering of a `ZodError` as `JSON.stringify(o.error)` produces,
written into the 400 body by `entityAs`. -/
def renderIssue (i : ZodIssue) : String :=
  "\x7b\"path\":[" ++ String.intercalate "," (i.path.map (fun p => "\"" ++ p ++ "\"")) ++
    "],\"code\":\"" ++ i.code ++ "\"\x7d"

/-- Rendering of the issue list. -/
def renderError (e : ZodError) : String :=
  "[" ++ String.intercalate "," (e.map renderIssue) ++ "]"

/-- What `res.send` wrote: a plain text body (for strings) or a JSON body
(for objects). -/
inductive SentBody where
  | text (s : String) : SentBody
  | json (j : Json) : SentBody
deriving Repr

/-- The outcome of running a request handler: either a response was
written, or an uncaught error escaped the handler. -/
inductive HandlerResult where
  | response (status : Nat) (body : SentBody) : HandlerResult
  | raised (err : ZodError) : HandlerResult
deriving Repr

/-- A request handler, as a function of the request. -/
abbrev RequestHandler := HttpRequest → HandlerResult

/-! ### zod string primitives -/

/-- JavaScript `String.prototype.trim` whitespace, on characters: the
ECMAScript WhiteSpace set (TAB, VT, FF, SP, NBSP, ZWNBSP and the Unicode
Zs spaces) together with the LineTerminators (LF, CR, LS, PS). -/
def isWs (c : Char) : Bool :=
  c = ' ' || c = '\t' || c = '\n' || c = '\r' ||
    c = '\u000B' || c = '\u000C' || c = '\u00A0' || c = '\u1680' ||
    ('\u2000' ≤ c && c ≤ '\u200A') ||
    c = '\u2028' || c = '\u2029' || c = '\u202F' || c = '\u205F' ||
    c = '\u3000' || c = '\uFEFF'

/-- Trim leading and trailing whitespace from a character list. -/
def trimChars (cs : List Char) : List Char :=
  ((cs.dropWhile isWs).reverse.dropWhile isWs).reverse

/-- Trim on strings. -/
def trimStr (s : String) : String := ⟨trimChars s.data⟩

/-- The lowercase hex character of `n % 16`: digits for values below ten,
letters from `a` onwards, as `toString(16)` renders a nibble. -/
def hexChar (n : Nat) : Char :=
  Char.ofNat (if n % 16 < 10 then 48 + n % 16 else 87 + n % 16)

/-- Two lowercase hex characters of a byte, as the uuid package's
`byteToHex` table produces. -/
def byteToHex (b : Nat) : List Char := [hexChar (b % 256 / 16), hexChar b]

/-- A character accepted by the zod uuid pattern's hex classes. -/
def isHexChar (c : Char) : Bool :=
  ('0' ≤ c && c ≤ '9') || ('a' ≤ c && c ≤ 'f') || ('A' ≤ c && c ≤ 'F')

/-- Split a character list on `'-'` (every occurrence), keeping empty
groups, as the anchored uuid regex's dash positions require. -/
def splitOnDash : List Char → List (List Char)
  | [] => [[]]
  | c :: rest =>
    if c = '-' then [] :: splitOnDash rest
    else
      match splitOnDash rest with
      | [] => [[c]]
      | g :: gs => (c :: g) :: gs

/-- The zod `z.string().uuid()` syntax check: five dash-separated groups
of hex digits with lengths 8, 4, 4, 4, 12. -/
def isUuidChars (cs : List Char) : Bool :=
  match splitOnDash cs with
  | [a, b, c, d, e] =>
    a.length == 8 && b.length == 4 && c.length == 4 && d.length == 4 && e.length == 12 &&
      (a ++ b ++ c ++ d ++ e).all isHexChar
  | _ => false

/-- uuid syntax check on strings. -/
def isUuid (s : String) : Bool := isUuidChars s.data

/-- Whether `needle` occurs as a contiguous run inside `hay`; used to state
that a value does not appear anywhere in a response body. -/
def occursIn (needle hay : List Char) : Bool :=
  (List.range (hay.length + 1)).any fun i => (hay.drop i).take needle.length == needle

/-! ### zod schemas of the program -/

/-- `projectNameFormat = z.string().trim().min(1)` applied to the value
found (or not) at `path`: a missing or non-string value is an
`invalid_type` issue, a string is trimmed and must be non-empty. -/
def projectNameFormatParse (path : List String) (v : Option Json) : Except ZodError String :=
  match v with
  | some (Json.str s) =>
    let t := trimStr s
    if 1 ≤ t.length then Except.ok t else Except.error [⟨path, "too_small"⟩]
  | some _ => Except.error [⟨path, "invalid_type"⟩]
  | none => Except.error [⟨path, "invalid_type"⟩]

/-- `projectIdFormat = z.string().uuid()` as a throwing parse. -/
def projectIdFormatParse (s : String) : Except ZodError String :=
  if isUuid s then Except.ok s else Except.error [⟨[], "invalid_string"⟩]

/-- `userIdFormat = z.string().uuid()` applied to a header value of type
`string | string[]`: an array is not a string, so it is rejected with
`invalid_type` whatever its elements are. -/
def userIdFormatParse (v : HeaderValue) : Except ZodError String :=
  match v with
  | HeaderValue.single s =>
    if isUuid s then Except.ok s else Except.error [⟨[], "invalid_string"⟩]
  | HeaderValue.several _ => Except.error [⟨[], "invalid_type"⟩]

/-- The validated `CreateProjectRequest = z.object({ name: projectNameFormat })`
value: only the declared field survives parsing (zod strips unknown keys). -/
structure CreateProjectRequest where
  name : String
deriving Repr, DecidableEq

/-- `CreateProjectRequest.safeParse` on a JSON body: a non-object is an
`invalid_type` issue at the root; an object is parsed field-wise at path
`["name"]`, undeclared fields being ignored. -/
def createProjectRequestParse (j : Json) : Except ZodError CreateProjectRequest :=
  match j with
  | Json.obj fields =>
    match projectNameFormatParse ["name"] (fields.lookup "name") with
    | Except.ok n => Except.ok ⟨n⟩
    | Except.error e => Except.error e
  | _ => Except.error [⟨[], "invalid_type"⟩]

/-! ### Domain -/

/-- A created `Project`. -/
structure Project where
  id : String
  userId : String
  name : String
deriving Repr, DecidableEq

/-- The spread `{...request, userId: userId, id: ...}` serialised by
`res.send`, fields in JavaScript insertion order. -/
def projectToJson (p : Project) : Json :=
  Json.obj [("name", Json.str p.name), ("userId", Json.str p.userId), ("id", Json.str p.id)]

/-- The discriminated outcome of the domain operation. -/
inductive CreateProjectResponse where
  | created (project : Project) : CreateProjectResponse
  | userNotFound (userId : String) : CreateProjectResponse
deriving Repr, DecidableEq

/-- First dash group of the uuid stringifier: bytes 0-3. -/
def v4Seg1 (bs : Fin 16 → Nat) : List Char :=
  byteToHex (bs 0) ++ byteToHex (bs 1) ++ byteToHex (bs 2) ++ byteToHex (bs 3)

/-- Second dash group: bytes 4-5. -/
def v4Seg2 (bs : Fin 16 → Nat) : List Char :=
  byteToHex (bs 4) ++ byteToHex (bs 5)

/-- Third dash group: bytes 6-7, with the version nibble of byte 6 forced
to `4` (`(b & 0x0f) | 0x40`, i.e. `b % 16 + 64`). -/
def v4Seg3 (bs : Fin 16 → Nat) : List Char :=
  byteToHex (bs 6 % 16 + 64) ++ byteToHex (bs 7)

/-- Fourth dash group: bytes 8-9, with the variant bits of byte 8 forced
(`(b & 0x3f) | 0x80`, i.e. `b % 64 + 128`). -/
def v4Seg4 (bs : Fin 16 → Nat) : List Char :=
  byteToHex (bs 8 % 64 + 128) ++ byteToHex (bs 9)

/-- Fifth dash group: bytes 10-15. -/
def v4Seg5 (bs : Fin 16 → Nat) : List Char :=
  byteToHex (bs 10) ++ byteToHex (bs 11) ++ byteToHex (bs 12) ++
    byteToHex (bs 13) ++ byteToHex (bs 14) ++ byteToHex (bs 15)

/-- The `v4()` stringifier of the uuid package on 16 random bytes: the
five hex groups joined by dashes. -/
def v4Chars (bs : Fin 16 → Nat) : List Char :=
  v4Seg1 bs ++ '-' :: (v4Seg2 bs ++ '-' :: (v4Seg3 bs ++ '-' :: (v4Seg4 bs ++ '-' :: v4Seg5 bs)))

/-- `v4()` as a string. -/
def v4 (bs : Fin 16 → Nat) : String := ⟨v4Chars bs⟩

/-- `createProject(userId, request)`: the `Math.random()` draw and the 16
random bytes behind `v4()` are explicit parameters; the draw below `0.3`
yields `UserNotFound(userId)`, otherwise `projectIdFormat.parse(v4())`
(which would throw on a non-uuid, hence `Except`) supplies the id of the
created project. -/
def createProject (rand : ℚ) (fresh : Fin 16 → Nat) (userId : String)
    (request : CreateProjectRequest) : Except ZodError CreateProjectResponse :=
  if rand < 3 / 10 then
    Except.ok (CreateProjectResponse.userNotFound userId)
  else
    match projectIdFormatParse (v4 fresh) with
    | Except.ok pid =>
      Except.ok (CreateProjectResponse.created ⟨pid, userId, request.name⟩)
    | Except.error e => Except.error e

/-! ### Pipeline combinators -/

/-- `entityAs(object, result)`: parse the body against the shape; on
success run the continuation's handler, on failure write a 400 with the
stringified zod error and stop. -/
def entityAs (schema : Json → Except ZodError CreateProjectRequest)
    (result : CreateProjectRequest → RequestHandler) : RequestHandler :=
  fun req =>
    match schema req.body with
    | Except.ok o => result o req
    | Except.error e => HandlerResult.response 400 (SentBody.text (renderError e))

/-- `headerValueByName(name, result)`: look the header up under its
lowercased name; if absent write a 400 with a plain message naming the
header, otherwise run the continuation's handler on the value. -/
def headerValueByName (name : String) (result : HeaderValue → RequestHandler) :
    RequestHandler :=
  fun req =>
    match lookupHeader req name with
    | none => HandlerResult.response 400 (SentBody.text ("No header " ++ name))
    | some value => result value req

/-- `completeAsJson(result)`: run the thunk once and write its
status/payload pair; a failure raised by the thunk is not caught and
escapes the handler. -/
def completeAsJson (result : Unit → Except ZodError (Nat × SentBody)) : RequestHandler :=
  fun _ =>
    match result () with
    | Except.ok sv => HandlerResult.response sv.1 sv.2
    | Except.error e => HandlerResult.raised e

/-- The thunk handed to `completeAsJson` by the route: parse the header
value as a user id (this parse can fail), call `createProject`, and map
the outcome exhaustively to a status/payload pair. -/
def outcomeThunk (rand : ℚ) (fresh : Fin 16 → Nat) (token : HeaderValue)
    (request : CreateProjectRequest) : Unit → Except ZodError (Nat × SentBody) :=
  fun _ =>
    match userIdFormatParse token with
    | Except.error e => Except.error e
    | Except.ok uid =>
      match createProject rand fresh uid request with
      | Except.error e => Except.error e
      | Except.ok resp =>
        match resp with
        | CreateProjectResponse.created p =>
          Except.ok (201, SentBody.json (projectToJson p))
        | CreateProjectResponse.userNotFound _ =>
          Except.ok (404, SentBody.text "Sry, no user found")

/-- The `app.post('/', ...)` handler: body validation, then header
extraction, then the outcome responder around the domain call. -/
def appHandler (rand : ℚ) (fresh : Fin 16 → Nat) : RequestHandler :=
  entityAs createProjectRequestParse (fun request =>
    headerValueByName "Authorization" (fun token =>
      completeAsJson (outcomeThunk rand fresh token request)))

/-- Join dash groups back with `'-'`: the left inverse of `splitOnDash`. -/
def joinDash : List (List Char) → List Char
  | [] => []
  | [g] => g
  | g :: gs => g ++ '-' :: joinDash gs

/-! ### Stage trace

An instrumented copy of the handler that also records which pipeline
stages ran, in order, for the temporal claims.  Its first component is
proved equal to `appHandler` below. -/

/-- The pipeline stages. -/
inductive Stage where
  | bodyValidation : Stage
  | headerExtraction : Stage
  | outcomeResponding : Stage
  | domainCall : Stage
deriving Repr, DecidableEq

/-- The full stage order of a request that reaches the domain operation. -/
def stageOrder : List Stage :=
  [Stage.bodyValidation, Stage.headerExtraction, Stage.outcomeResponding, Stage.domainCall]

/-- The handler, instrumented with the list of stages that ran, in
execution order.  Each branch mirrors the control flow of `appHandler`:
a failed body parse stops after body validation, a missing header stops
after header extraction, a failing token parse stops inside the outcome
responder before the domain call. -/
def appHandlerTrace (rand : ℚ) (fresh : Fin 16 → Nat) (req : HttpRequest) :
    HandlerResult × List Stage :=
  match createProjectRequestParse req.body with
  | Except.error e =>
    (HandlerResult.response 400 (SentBody.text (renderError e)), [Stage.bodyValidation])
  | Except.ok request =>
    match lookupHeader req "Authorization" with
    | none =>
      (HandlerResult.response 400 (SentBody.text ("No header " ++ "Authorization")),
        [Stage.bodyValidation, Stage.headerExtraction])
    | some token =>
      match userIdFormatParse token with
      | Except.error e =>
        (HandlerResult.raised e,
          [Stage.bodyValidation, Stage.headerExtraction, Stage.outcomeResponding])
      | Except.ok uid =>
        match createProject rand fresh uid request with
        | Except.error e => (HandlerResult.raised e, stageOrder)
        | Except.ok resp =>
          match resp with
          | CreateProjectResponse.created p =>
            (HandlerResult.response 201 (SentBody.json (projectToJson p)), stageOrder)
          | CreateProjectResponse.userNotFound _ =>
            (HandlerResult.response 404 (SentBody.text "Sry, no user found"), stageOrder)

/-! ### Hex and uuid lemmas -/

theorem hexChar_spec (n : Nat) : isHexChar (hexChar n) = true ∧ hexChar n ≠ '-' := by
  have h : n % 16 < 16 := Nat.mod_lt _ (by norm_num)
  unfold hexChar
  generalize n % 16 = m at h ⊢
  interval_cases m <;> exact ⟨by decide, by decide⟩

theorem all_hex_byteToHex (b : Nat) : (byteToHex b).all isHexChar = true := by
  simp only [byteToHex, List.all_cons, List.all_nil, Bool.and_true, Bool.and_eq_true]
  exact ⟨(hexChar_spec _).1, (hexChar_spec _).1⟩

theorem noDash_of_all_hex (cs : List Char) (h : cs.all isHexChar = true) :
    ∀ c ∈ cs, c ≠ '-' := by
  intro c hc
  have hx := List.all_eq_true.mp h c hc
  rintro rfl
  exact absurd hx (by decide)

theorem byteToHex_length (b : Nat) : (byteToHex b).length = 2 := rfl

theorem splitOnDash_cons (c : Char) (rest : List Char) :
    splitOnDash (c :: rest) =
      if c = '-' then [] :: splitOnDash rest
      else
        match splitOnDash rest with
        | [] => [[c]]
        | g :: gs => (c :: g) :: gs := by
  rfl

theorem splitOnDash_ne_nil (cs : List Char) : splitOnDash cs ≠ [] := by
  induction cs with
  | nil => simp [splitOnDash]
  | cons c rest ih =>
    rw [splitOnDash_cons]
    split
    · simp
    · cases h : splitOnDash rest <;> simp

theorem splitOnDash_noDash (cs : List Char) (h : ∀ c ∈ cs, c ≠ '-') :
    splitOnDash cs = [cs] := by
  induction cs with
  | nil => rfl
  | cons c rest ih =>
    have hc : c ≠ '-' := h c (by simp)
    have hrest : ∀ x ∈ rest, x ≠ '-' := fun x hx => h x (by simp [hx])
    rw [splitOnDash_cons, if_neg hc, ih hrest]

theorem splitOnDash_append (a b : List Char) (h : ∀ c ∈ a, c ≠ '-') :
    splitOnDash (a ++ '-' :: b) = a :: splitOnDash b := by
  induction a with
  | nil => simp [splitOnDash]
  | cons c a2 ih =>
    have hc : c ≠ '-' := h c (by simp)
    have ha : ∀ x ∈ a2, x ≠ '-' := fun x hx => h x (by simp [hx])
    show splitOnDash (c :: (a2 ++ '-' :: b)) = (c :: a2) :: splitOnDash b
    rw [splitOnDash_cons, if_neg hc, ih ha]

theorem joinDash_splitOnDash (cs : List Char) : joinDash (splitOnDash cs) = cs := by
  induction cs with
  | nil => rfl
  | cons c rest ih =>
    rw [splitOnDash_cons]
    by_cases hc : c = '-'
    · rw [if_pos hc]
      rcases hgs : splitOnDash rest with _ | ⟨g, gs⟩
      · exact absurd hgs (splitOnDash_ne_nil rest)
      · rw [hgs] at ih
        subst hc
        show joinDash ([] :: g :: gs) = '-' :: rest
        show [] ++ '-' :: joinDash (g :: gs) = '-' :: rest
        rw [ih]
        rfl
    · rw [if_neg hc]
      rcases hgs : splitOnDash rest with _ | ⟨g, gs⟩
      · exact absurd hgs (splitOnDash_ne_nil rest)
      · rw [hgs] at ih
        cases gs with
        | nil =>
          show c :: g = c :: rest
          have : joinDash [g] = g := rfl
          rw [this] at ih
          rw [ih]
        | cons g2 gs2 =>
          show (c :: g) ++ '-' :: joinDash (g2 :: gs2) = c :: rest
          have : joinDash (g :: g2 :: gs2) = g ++ '-' :: joinDash (g2 :: gs2) := rfl
          rw [this] at ih
          rw [← ih]
          rfl

theorem splitOnDash_five_length (cs a b c d e : List Char)
    (h : splitOnDash cs = [a, b, c, d, e]) :
    cs.length = a.length + b.length + c.length + d.length + e.length + 4 := by
  have hj := joinDash_splitOnDash cs
  rw [h] at hj
  have : joinDash [a, b, c, d, e] =
      a ++ '-' :: (b ++ '-' :: (c ++ '-' :: (d ++ '-' :: e))) := rfl
  rw [this] at hj
  rw [← hj]
  simp [List.length_append]
  omega

theorem all_hex_seg1 (bs : Fin 16 → Nat) : (v4Seg1 bs).all isHexChar = true := by
  simp [v4Seg1, List.all_append, all_hex_byteToHex]

theorem all_hex_seg2 (bs : Fin 16 → Nat) : (v4Seg2 bs).all isHexChar = true := by
  simp [v4Seg2, List.all_append, all_hex_byteToHex]

theorem all_hex_seg3 (bs : Fin 16 → Nat) : (v4Seg3 bs).all isHexChar = true := by
  simp [v4Seg3, List.all_append, all_hex_byteToHex]

theorem all_hex_seg4 (bs : Fin 16 → Nat) : (v4Seg4 bs).all isHexChar = true := by
  simp [v4Seg4, List.all_append, all_hex_byteToHex]

theorem all_hex_seg5 (bs : Fin 16 → Nat) : (v4Seg5 bs).all isHexChar = true := by
  simp [v4Seg5, List.all_append, all_hex_byteToHex]

theorem seg1_length (bs : Fin 16 → Nat) : (v4Seg1 bs).length = 8 := by
  simp [v4Seg1, List.length_append, byteToHex_length]

theorem seg2_length (bs : Fin 16 → Nat) : (v4Seg2 bs).length = 4 := by
  simp [v4Seg2, List.length_append, byteToHex_length]

theorem seg3_length (bs : Fin 16 → Nat) : (v4Seg3 bs).length = 4 := by
  simp [v4Seg3, List.length_append, byteToHex_length]

theorem seg4_length (bs : Fin 16 → Nat) : (v4Seg4 bs).length = 4 := by
  simp [v4Seg4, List.length_append, byteToHex_length]

theorem seg5_length (bs : Fin 16 → Nat) : (v4Seg5 bs).length = 12 := by
  simp [v4Seg5, List.length_append, byteToHex_length]

theorem isUuid_v4 (bs : Fin 16 → Nat) : isUuid (v4 bs) = true := by
  have h1 := noDash_of_all_hex _ (all_hex_seg1 bs)
  have h2 := noDash_of_all_hex _ (all_hex_seg2 bs)
  have h3 := noDash_of_all_hex _ (all_hex_seg3 bs)
  have h4 := noDash_of_all_hex _ (all_hex_seg4 bs)
  have h5 := noDash_of_all_hex _ (all_hex_seg5 bs)
  show isUuidChars (v4Chars bs) = true
  unfold isUuidChars v4Chars
  rw [splitOnDash_append _ _ h1, splitOnDash_append _ _ h2, splitOnDash_append _ _ h3,
    splitOnDash_append _ _ h4, splitOnDash_noDash _ h5]
  simp [seg1_length, seg2_length, seg3_length, seg4_length, seg5_length, List.all_append,
    all_hex_seg1, all_hex_seg2, all_hex_seg3, all_hex_seg4, all_hex_seg5]

theorem isUuid_length (s : String) (h : isUuid s = true) : s.data.length = 36 := by
  unfold isUuid isUuidChars at h
  split at h
  case _ a b c d e heq =>
    simp only [Bool.and_eq_true, beq_iff_eq, List.all_append] at h
    obtain ⟨⟨⟨⟨⟨ha, hb⟩, hc⟩, hd⟩, he⟩, _⟩ := h
    have := splitOnDash_five_length s.data a b c d e heq
    omega
  case _ => exact absurd h (by simp)


/-! ### Pipeline characterisation lemmas -/

theorem projectIdFormatParse_v4 (bs : Fin 16 → Nat) :
    projectIdFormatParse (v4 bs) = Except.ok (v4 bs) := by
  simp [projectIdFormatParse, isUuid_v4]

theorem createProject_below (r : ℚ) (fresh : Fin 16 → Nat) (uid : String)
    (req : CreateProjectRequest) (h : r < 3 / 10) :
    createProject r fresh uid req =
      Except.ok (CreateProjectResponse.userNotFound uid) := by
  unfold createProject
  rw [if_pos h]

theorem createProject_atLeast (r : ℚ) (fresh : Fin 16 → Nat) (uid : String)
    (req : CreateProjectRequest) (h : ¬ r < 3 / 10) :
    createProject r fresh uid req =
      Except.ok (CreateProjectResponse.created ⟨v4 fresh, uid, req.name⟩) := by
  unfold createProject
  rw [if_neg h, projectIdFormatParse_v4]

theorem entityAs_error (k : CreateProjectRequest → RequestHandler) (q : HttpRequest)
    (e : ZodError) (h : createProjectRequestParse q.body = Except.error e) :
    entityAs createProjectRequestParse k q =
      HandlerResult.response 400 (SentBody.text (renderError e)) := by
  unfold entityAs
  rw [h]

theorem appHandler_badBody (r : ℚ) (f : Fin 16 → Nat) (q : HttpRequest) (e : ZodError)
    (h : createProjectRequestParse q.body = Except.error e) :
    appHandler r f q = HandlerResult.response 400 (SentBody.text (renderError e)) := by
  unfold appHandler
  exact entityAs_error _ q e h

theorem appHandler_okBody (r : ℚ) (f : Fin 16 → Nat) (q : HttpRequest)
    (o : CreateProjectRequest) (hb : createProjectRequestParse q.body = Except.ok o) :
    appHandler r f q =
      headerValueByName "Authorization"
        (fun token => completeAsJson (outcomeThunk r f token o)) q := by
  unfold appHandler entityAs
  rw [hb]

theorem appHandler_noHeader (r : ℚ) (f : Fin 16 → Nat) (q : HttpRequest)
    (o : CreateProjectRequest) (hb : createProjectRequestParse q.body = Except.ok o)
    (hh : lookupHeader q "Authorization" = none) :
    appHandler r f q = HandlerResult.response 400 (SentBody.text "No header Authorization") := by
  rw [appHandler_okBody r f q o hb]
  unfold headerValueByName
  rw [hh]
  rfl

theorem appHandler_withHeader (r : ℚ) (f : Fin 16 → Nat) (q : HttpRequest)
    (o : CreateProjectRequest) (v : HeaderValue)
    (hb : createProjectRequestParse q.body = Except.ok o)
    (hh : lookupHeader q "Authorization" = some v) :
    appHandler r f q = completeAsJson (outcomeThunk r f v o) q := by
  rw [appHandler_okBody r f q o hb]
  unfold headerValueByName
  rw [hh]

theorem appHandler_raisesToken (r : ℚ) (f : Fin 16 → Nat) (q : HttpRequest)
    (o : CreateProjectRequest) (v : HeaderValue) (e : ZodError)
    (hb : createProjectRequestParse q.body = Except.ok o)
    (hh : lookupHeader q "Authorization" = some v)
    (hv : userIdFormatParse v = Except.error e) :
    appHandler r f q = HandlerResult.raised e := by
  rw [appHandler_withHeader r f q o v hb hh]
  unfold completeAsJson outcomeThunk
  rw [hv]

theorem appHandler_notFound (r : ℚ) (f : Fin 16 → Nat) (q : HttpRequest)
    (o : CreateProjectRequest) (u : String)
    (hb : createProjectRequestParse q.body = Except.ok o)
    (hh : lookupHeader q "Authorization" = some (HeaderValue.single u))
    (hu : isUuid u = true) (hr : r < 3 / 10) :
    appHandler r f q = HandlerResult.response 404 (SentBody.text "Sry, no user found") := by
  rw [appHandler_withHeader r f q o _ hb hh]
  unfold completeAsJson outcomeThunk userIdFormatParse
  simp only [hu, if_true, createProject_below r f u o hr]

theorem appHandler_created (r : ℚ) (f : Fin 16 → Nat) (q : HttpRequest)
    (o : CreateProjectRequest) (u : String)
    (hb : createProjectRequestParse q.body = Except.ok o)
    (hh : lookupHeader q "Authorization" = some (HeaderValue.single u))
    (hu : isUuid u = true) (hr : ¬ r < 3 / 10) :
    appHandler r f q =
      HandlerResult.response 201 (SentBody.json (projectToJson ⟨v4 f, u, o.name⟩)) := by
  rw [appHandler_withHeader r f q o _ hb hh]
  unfold completeAsJson outcomeThunk userIdFormatParse
  simp only [hu, if_true, createProject_atLeast r f u o hr]


theorem occursIn_length (nd hay : List Char) (h : occursIn nd hay = true) :
    nd.length ≤ hay.length := by
  unfold occursIn at h
  rw [List.any_eq_true] at h
  obtain ⟨i, _, heq⟩ := h
  rw [beq_iff_eq] at heq
  calc nd.length = ((hay.drop i).take nd.length).length := by rw [heq]
    _ ≤ (hay.drop i).length := by rw [List.length_take]; omega
    _ ≤ hay.length := by rw [List.length_drop]; omega

theorem parseBody_missing (fields : List (String × Json))
    (h : fields.lookup "name" = none) :
    createProjectRequestParse (Json.obj fields) =
      Except.error [⟨["name"], "invalid_type"⟩] := by
  simp only [createProjectRequestParse, projectNameFormatParse, h]

theorem parseBody_blank (fields : List (String × Json)) (s : String)
    (h : fields.lookup "name" = some (Json.str s)) (hs : trimChars s.data = []) :
    createProjectRequestParse (Json.obj fields) =
      Except.error [⟨["name"], "too_small"⟩] := by
  have hlen : (trimStr s).length = 0 := by
    show (trimChars s.data).length = 0
    rw [hs]
    rfl
  simp only [createProjectRequestParse, projectNameFormatParse, h]
  rw [if_neg (by omega)]

theorem parseBody_nonString (fields : List (String × Json)) (j : Json)
    (h : fields.lookup "name" = some j) (hj : ∀ s, j ≠ Json.str s) :
    createProjectRequestParse (Json.obj fields) =
      Except.error [⟨["name"], "invalid_type"⟩] := by
  simp only [createProjectRequestParse, projectNameFormatParse, h]

theorem parseBody_ok (fields : List (String × Json)) (s : String)
    (h : fields.lookup "name" = some (Json.str s)) (hs : trimChars s.data ≠ []) :
    createProjectRequestParse (Json.obj fields) = Except.ok ⟨trimStr s⟩ := by
  have hlen : 1 ≤ (trimStr s).length := by
    show 1 ≤ (trimChars s.data).length
    rcases hc : trimChars s.data with _ | ⟨c, cs⟩
    · exact absurd hc hs
    · simp
  simp only [createProjectRequestParse, projectNameFormatParse, h]
  rw [if_pos hlen]


/-! ### Claims -/

/-- C1 (amended): for every request whose body parses against the
CreateProjectRequest shape and whose Authorization header carries a
syntactically valid UUID, when `createProject` takes the Created branch the
response has status 201 and its body is the created Project, whose `name`
equals the submitted name *after trimming* (the zod `.trim()` transform),
whose `userId` equals the header value, and whose `id` and `userId` are
syntactically valid UUIDs. -/
theorem claim_C1_success_shape (r : ℚ) (f : Fin 16 → Nat) (q : HttpRequest)
    (fields : List (String × Json)) (s u : String)
    (hbody : q.body = Json.obj fields)
    (hname : fields.lookup "name" = some (Json.str s))
    (hns : trimChars s.data ≠ [])
    (hh : lookupHeader q "Authorization" = some (HeaderValue.single u))
    (hu : isUuid u = true)
    (hr : ¬ r < 3 / 10) :
    appHandler r f q =
      HandlerResult.response 201 (SentBody.json (Json.obj
        [("name", Json.str (trimStr s)), ("userId", Json.str u), ("id", Json.str (v4 f))])) ∧
    isUuid (v4 f) = true ∧ isUuid u = true := by
  have hb : createProjectRequestParse q.body = Except.ok ⟨trimStr s⟩ := by
    rw [hbody]
    exact parseBody_ok fields s hname hns
  refine ⟨?_, isUuid_v4 f, hu⟩
  rw [appHandler_created r f q ⟨trimStr s⟩ u hb hh hu hr]
  rfl

/-- C1 witness: concrete successful creation. -/
theorem claim_C1_success_shape_witness :
    appHandler 1 (fun _ => 0)
        ⟨Json.obj [("name", Json.str "Demo")],
         [("authorization", HeaderValue.single "3fa85f64-5717-4562-b3fc-2c963f66afa6")]⟩ =
      HandlerResult.response 201 (SentBody.json (Json.obj
        [("name", Json.str (trimStr "Demo")),
         ("userId", Json.str "3fa85f64-5717-4562-b3fc-2c963f66afa6"),
         ("id", Json.str (v4 (fun _ => 0)))])) ∧
    isUuid (v4 (fun _ => 0)) = true ∧
    isUuid "3fa85f64-5717-4562-b3fc-2c963f66afa6" = true :=
  claim_C1_success_shape 1 (fun _ => 0)
    ⟨Json.obj [("name", Json.str "Demo")],
     [("authorization", HeaderValue.single "3fa85f64-5717-4562-b3fc-2c963f66afa6")]⟩
    [("name", Json.str "Demo")] "Demo" "3fa85f64-5717-4562-b3fc-2c963f66afa6"
    rfl rfl (by decide) (by decide) (by decide) (by norm_num)

/-- C1 counterexample: for the submitted name `" Demo "` the 201 body's
`name` is the trimmed `"Demo"`, which differs from the submitted name, so
the claim as stated (response name equals the submitted name) is false. -/
theorem claim_C1_counterexample :
    appHandler 1 (fun _ => 0)
        ⟨Json.obj [("name", Json.str " Demo ")],
         [("authorization", HeaderValue.single "3fa85f64-5717-4562-b3fc-2c963f66afa6")]⟩ =
      HandlerResult.response 201 (SentBody.json (Json.obj
        [("name", Json.str "Demo"),
         ("userId", Json.str "3fa85f64-5717-4562-b3fc-2c963f66afa6"),
         ("id", Json.str "00000000-0000-4000-8000-000000000000")])) ∧
    ("Demo" : String) ≠ " Demo " := by
  constructor
  · rw [appHandler_created 1 (fun _ => 0)
      ⟨Json.obj [("name", Json.str " Demo ")],
       [("authorization", HeaderValue.single "3fa85f64-5717-4562-b3fc-2c963f66afa6")]⟩
      ⟨"Demo"⟩ "3fa85f64-5717-4562-b3fc-2c963f66afa6"
      rfl (by decide) (by decide) (by norm_num)]
    rfl
  · decide

/-- C2 (amended): every request lacking the Authorization header gets
status 400 whatever the body is; the response body equals
`"No header Authorization"` exactly when the request body passed shape
validation (a request whose body also fails validation gets the body
validation error instead, because body validation runs first). -/
theorem claim_C2_header_requirement (r : ℚ) (f : Fin 16 → Nat) (q : HttpRequest)
    (hh : lookupHeader q "Authorization" = none) :
    (∃ b, appHandler r f q = HandlerResult.response 400 b) ∧
    (∀ o, createProjectRequestParse q.body = Except.ok o →
      appHandler r f q = HandlerResult.response 400 (SentBody.text "No header Authorization")) := by
  constructor
  · cases hb : createProjectRequestParse q.body with
    | error e => exact ⟨_, appHandler_badBody r f q e hb⟩
    | ok o => exact ⟨_, appHandler_noHeader r f q o hb hh⟩
  · intro o hb
    exact appHandler_noHeader r f q o hb hh

/-- C2 witness: concrete valid-body request without the header. -/
theorem claim_C2_header_requirement_witness :
    (∃ b, appHandler 1 (fun _ => 0) ⟨Json.obj [("name", Json.str "Demo")], []⟩ =
      HandlerResult.response 400 b) ∧
    (∀ o, createProjectRequestParse (Json.obj [("name", Json.str "Demo")]) = Except.ok o →
      appHandler 1 (fun _ => 0) ⟨Json.obj [("name", Json.str "Demo")], []⟩ =
        HandlerResult.response 400 (SentBody.text "No header Authorization")) :=
  claim_C2_header_requirement 1 (fun _ => 0) ⟨Json.obj [("name", Json.str "Demo")], []⟩ (by decide)

/-- C2 counterexample: a request with an invalid body and no Authorization
header is answered 400 with the body-validation error, not with
`"No header Authorization"`, refuting the claim's "regardless of the
request body's content". -/
theorem claim_C2_counterexample :
    appHandler 1 (fun _ => 0) ⟨Json.obj [("name", Json.str "")], []⟩ =
      HandlerResult.response 400 (SentBody.text (renderError [⟨["name"], "too_small"⟩])) ∧
    renderError [⟨["name"], "too_small"⟩] ≠ "No header Authorization" :=
  ⟨appHandler_badBody 1 (fun _ => 0) ⟨Json.obj [("name", Json.str "")], []⟩
    [⟨["name"], "too_small"⟩] rfl, by decide⟩

/-- C3: for a request with a valid body and a present Authorization header
whose single value is not a syntactically valid UUID, the failing
caller-identity parse is not caught anywhere: the handler run ends raised
(the zod failure escapes the Outcome Responder's thunk) and no response —
in particular no 400 — is written. -/
theorem claim_C3_identity_parse_uncaught (r : ℚ) (f : Fin 16 → Nat) (q : HttpRequest)
    (fields : List (String × Json)) (s u : String)
    (hbody : q.body = Json.obj fields)
    (hname : fields.lookup "name" = some (Json.str s))
    (hns : trimChars s.data ≠ [])
    (hh : lookupHeader q "Authorization" = some (HeaderValue.single u))
    (hu : isUuid u = false) :
    appHandler r f q = HandlerResult.raised [⟨[], "invalid_string"⟩] ∧
    ∀ n b, appHandler r f q ≠ HandlerResult.response n b := by
  have hb : createProjectRequestParse q.body = Except.ok ⟨trimStr s⟩ := by
    rw [hbody]
    exact parseBody_ok fields s hname hns
  have hv : userIdFormatParse (HeaderValue.single u) = Except.error [⟨[], "invalid_string"⟩] := by
    show (if isUuid u = true then Except.ok u
        else Except.error [(⟨[], "invalid_string"⟩ : ZodIssue)]) =
      Except.error [⟨[], "invalid_string"⟩]
    rw [hu, if_neg (by decide)]
  have hra := appHandler_raisesToken r f q ⟨trimStr s⟩ (HeaderValue.single u)
    [⟨[], "invalid_string"⟩] hb hh hv
  refine ⟨hra, ?_⟩
  intro n b hcon
  rw [hra] at hcon
  exact HandlerResult.noConfusion hcon

/-- C3 witness: concrete request with a non-UUID Authorization value. -/
theorem claim_C3_identity_parse_uncaught_witness :
    appHandler 1 (fun _ => 0)
        ⟨Json.obj [("name", Json.str "Demo")], [("authorization", HeaderValue.single "not-a-uuid")]⟩ =
      HandlerResult.raised [⟨[], "invalid_string"⟩] ∧
    ∀ n b, appHandler 1 (fun _ => 0)
        ⟨Json.obj [("name", Json.str "Demo")], [("authorization", HeaderValue.single "not-a-uuid")]⟩ ≠
      HandlerResult.response n b :=
  claim_C3_identity_parse_uncaught 1 (fun _ => 0)
    ⟨Json.obj [("name", Json.str "Demo")], [("authorization", HeaderValue.single "not-a-uuid")]⟩
    [("name", Json.str "Demo")] "Demo" "not-a-uuid"
    rfl rfl (by decide) (by decide) (by decide)

/-- C4: for every object request body missing the `name` field, or whose
`name` is a string that is empty after trimming (empty or whitespace-only),
or whose `name` is not a string, the parse fails with an issue at path
`["name"]`, `entityAs` answers 400 with the rendered error for *any*
continuation (so the continuation and the domain operation are never
invoked), and in particular the route handler does so for every random
draw and every fresh-byte source. -/
theorem claim_C4_body_validation (q : HttpRequest) (fields : List (String × Json))
    (hbody : q.body = Json.obj fields)
    (hbad : fields.lookup "name" = none ∨
      (∃ s, fields.lookup "name" = some (Json.str s) ∧ trimChars s.data = []) ∨
      (∃ j, fields.lookup "name" = some j ∧ ∀ s, j ≠ Json.str s)) :
    ∃ e, createProjectRequestParse q.body = Except.error e ∧
      (∃ i ∈ e, i.path = ["name"]) ∧
      (∀ k, entityAs createProjectRequestParse k q =
        HandlerResult.response 400 (SentBody.text (renderError e))) ∧
      (∀ (r : ℚ) (f : Fin 16 → Nat), appHandler r f q =
        HandlerResult.response 400 (SentBody.text (renderError e))) := by
  rcases hbad with h | ⟨s, h, hs⟩ | ⟨j, h, hj⟩
  · have he : createProjectRequestParse q.body = Except.error [⟨["name"], "invalid_type"⟩] := by
      rw [hbody]
      exact parseBody_missing fields h
    exact ⟨_, he, ⟨⟨["name"], "invalid_type"⟩, by simp, rfl⟩,
      fun k => entityAs_error k q _ he, fun r f => appHandler_badBody r f q _ he⟩
  · have he : createProjectRequestParse q.body = Except.error [⟨["name"], "too_small"⟩] := by
      rw [hbody]
      exact parseBody_blank fields s h hs
    exact ⟨_, he, ⟨⟨["name"], "too_small"⟩, by simp, rfl⟩,
      fun k => entityAs_error k q _ he, fun r f => appHandler_badBody r f q _ he⟩
  · have he : createProjectRequestParse q.body = Except.error [⟨["name"], "invalid_type"⟩] := by
      rw [hbody]
      exact parseBody_nonString fields j h hj
    exact ⟨_, he, ⟨⟨["name"], "invalid_type"⟩, by simp, rfl⟩,
      fun k => entityAs_error k q _ he, fun r f => appHandler_badBody r f q _ he⟩

/-- C4 witness: the empty object body (missing `name`). -/
theorem claim_C4_body_validation_witness :
    createProjectRequestParse (Json.obj []) = Except.error [⟨["name"], "invalid_type"⟩] ∧
    appHandler 1 (fun _ => 0) ⟨Json.obj [], []⟩ =
      HandlerResult.response 400 (SentBody.text (renderError [⟨["name"], "invalid_type"⟩])) := by
  obtain ⟨e, he, _, _, ha⟩ := claim_C4_body_validation ⟨Json.obj [], []⟩ [] rfl (Or.inl rfl)
  have he2 : Except.error (α := CreateProjectRequest) e =
      Except.error [(⟨["name"], "invalid_type"⟩ : ZodIssue)] := he.symm.trans rfl
  have hee : e = [⟨["name"], "invalid_type"⟩] := by
    injection he2
  subst hee
  exact ⟨he, ha 1 (fun _ => 0)⟩

/-- C5: whenever the domain operation reports UserNotFound (the random
draw falls below 0.3 on a request that reached it), the response is 404
with body exactly `"Sry, no user found"`, and the caller's userId does not
occur anywhere in that body (its 36 characters cannot fit in the 18
character message). -/
theorem claim_C5_not_found_mapping (r : ℚ) (f : Fin 16 → Nat) (q : HttpRequest)
    (o : CreateProjectRequest) (u : String)
    (hb : createProjectRequestParse q.body = Except.ok o)
    (hh : lookupHeader q "Authorization" = some (HeaderValue.single u))
    (hu : isUuid u = true)
    (hr : r < 3 / 10) :
    appHandler r f q = HandlerResult.response 404 (SentBody.text "Sry, no user found") ∧
    occursIn u.data ("Sry, no user found".data) = false := by
  refine ⟨appHandler_notFound r f q o u hb hh hu hr, ?_⟩
  cases hx : occursIn u.data ("Sry, no user found".data) with
  | false => rfl
  | true =>
    have hlen := occursIn_length _ _ hx
    have h36 := isUuid_length u hu
    have h18 : ("Sry, no user found".data).length = 18 := rfl
    omega

/-- C5 witness: concrete request driven to the UserNotFound branch. -/
theorem claim_C5_not_found_mapping_witness :
    appHandler 0 (fun _ => 0)
        ⟨Json.obj [("name", Json.str "Demo")],
         [("authorization", HeaderValue.single "3fa85f64-5717-4562-b3fc-2c963f66afa6")]⟩ =
      HandlerResult.response 404 (SentBody.text "Sry, no user found") ∧
    occursIn "3fa85f64-5717-4562-b3fc-2c963f66afa6".data ("Sry, no user found".data) = false :=
  claim_C5_not_found_mapping 0 (fun _ => 0)
    ⟨Json.obj [("name", Json.str "Demo")],
     [("authorization", HeaderValue.single "3fa85f64-5717-4562-b3fc-2c963f66afa6")]⟩
    ⟨"Demo"⟩ "3fa85f64-5717-4562-b3fc-2c963f66afa6"
    rfl (by decide) (by decide) (by norm_num)

/-- C6: for every caller identity and validated request, `createProject`
with random draw r in [0,1) returns UserNotFound carrying exactly the
given identity when r < 0.3, and otherwise returns Created with a Project
whose userId is the given identity, whose name is the request's name, and
whose id is the freshly generated, syntactically valid UUID. -/
theorem claim_C6_domain_stub (r : ℚ) (fresh : Fin 16 → Nat) (uid : String)
    (req : CreateProjectRequest) (_h0 : 0 ≤ r) (_h1 : r < 1) :
    (r < 3 / 10 →
      createProject r fresh uid req = Except.ok (CreateProjectResponse.userNotFound uid)) ∧
    (¬ r < 3 / 10 →
      createProject r fresh uid req =
        Except.ok (CreateProjectResponse.created ⟨v4 fresh, uid, req.name⟩) ∧
      isUuid (v4 fresh) = true) :=
  ⟨fun h => createProject_below r fresh uid req h,
   fun h => ⟨createProject_atLeast r fresh uid req h, isUuid_v4 fresh⟩⟩

/-- C6 witness: both branches at concrete draws 1/5 and 1/2. -/
theorem claim_C6_domain_stub_witness :
    createProject (1 / 5) (fun _ => 0) "u" ⟨"Demo"⟩ =
      Except.ok (CreateProjectResponse.userNotFound "u") ∧
    (createProject (1 / 2) (fun _ => 0) "u" ⟨"Demo"⟩ =
        Except.ok (CreateProjectResponse.created ⟨v4 (fun _ => 0), "u", "Demo"⟩) ∧
      isUuid (v4 (fun _ => 0)) = true) :=
  ⟨(claim_C6_domain_stub (1 / 5) (fun _ => 0) "u" ⟨"Demo"⟩ (by norm_num) (by norm_num)).1
      (by norm_num),
   (claim_C6_domain_stub (1 / 2) (fun _ => 0) "u" ⟨"Demo"⟩ (by norm_num) (by norm_num)).2
      (by norm_num)⟩

/-- C8: a request body object containing a valid `name` plus any other,
undeclared fields passes validation, and the continuation receives just
the declared field (the parsed value carries only `name`). -/
theorem claim_C8_extra_fields (fields : List (String × Json)) (s : String)
    (hname : fields.lookup "name" = some (Json.str s))
    (hns : trimChars s.data ≠ []) :
    createProjectRequestParse (Json.obj fields) = Except.ok ⟨trimStr s⟩ :=
  parseBody_ok fields s hname hns

/-- C8 witness: extra fields of several shapes are ignored. -/
theorem claim_C8_extra_fields_witness :
    createProjectRequestParse (Json.obj
        [("name", Json.str "Demo"), ("extra", Json.num 42), ("another", Json.bool true)]) =
      Except.ok ⟨trimStr "Demo"⟩ :=
  claim_C8_extra_fields
    [("name", Json.str "Demo"), ("extra", Json.num 42), ("another", Json.bool true)]
    "Demo" rfl (by decide)

/-- C9: every string the v4 generator can produce satisfies the uuid
syntax, so `projectIdFormat.parse(v4())` always succeeds and
`createProject` is total: it returns an outcome (never raises) for every
draw, caller identity and request. -/
theorem claim_C9_v4_parse_total (bs : Fin 16 → Nat) :
    isUuid (v4 bs) = true ∧
    projectIdFormatParse (v4 bs) = Except.ok (v4 bs) ∧
    ∀ (r : ℚ) (uid : String) (req : CreateProjectRequest),
      ∃ resp, createProject r bs uid req = Except.ok resp := by
  refine ⟨isUuid_v4 bs, projectIdFormatParse_v4 bs, fun r uid req => ?_⟩
  by_cases h : r < 3 / 10
  · exact ⟨_, createProject_below r bs uid req h⟩
  · exact ⟨_, createProject_atLeast r bs uid req h⟩

/-- C10: when the Authorization header value is an ordered sequence of
text values (a repeated header, `string[]`), the caller-identity parse
fails — whatever the elements, in particular even if each one is a valid
UUID — so the request ends in an uncaught failure and no response (neither
201 nor 404) is produced. -/
theorem claim_C10_array_header (r : ℚ) (f : Fin 16 → Nat) (q : HttpRequest)
    (o : CreateProjectRequest) (ss : List String)
    (hb : createProjectRequestParse q.body = Except.ok o)
    (hh : lookupHeader q "Authorization" = some (HeaderValue.several ss)) :
    appHandler r f q = HandlerResult.raised [⟨[], "invalid_type"⟩] ∧
    ∀ n b, appHandler r f q ≠ HandlerResult.response n b := by
  have hv : userIdFormatParse (HeaderValue.several ss) =
      Except.error [⟨[], "invalid_type"⟩] := rfl
  have hra := appHandler_raisesToken r f q o (HeaderValue.several ss)
    [⟨[], "invalid_type"⟩] hb hh hv
  refine ⟨hra, ?_⟩
  intro n b hcon
  rw [hra] at hcon
  exact HandlerResult.noConfusion hcon

/-- C10 witness: a repeated header whose elements are each valid UUIDs. -/
theorem claim_C10_array_header_witness :
    appHandler 1 (fun _ => 0)
        ⟨Json.obj [("name", Json.str "Demo")],
         [("authorization", HeaderValue.several
            ["3fa85f64-5717-4562-b3fc-2c963f66afa6",
             "00000000-0000-4000-8000-000000000000"])]⟩ =
      HandlerResult.raised [⟨[], "invalid_type"⟩] ∧
    ∀ n b, appHandler 1 (fun _ => 0)
        ⟨Json.obj [("name", Json.str "Demo")],
         [("authorization", HeaderValue.several
            ["3fa85f64-5717-4562-b3fc-2c963f66afa6",
             "00000000-0000-4000-8000-000000000000"])]⟩ ≠
      HandlerResult.response n b :=
  claim_C10_array_header 1 (fun _ => 0)
    ⟨Json.obj [("name", Json.str "Demo")],
     [("authorization", HeaderValue.several
        ["3fa85f64-5717-4562-b3fc-2c963f66afa6",
         "00000000-0000-4000-8000-000000000000"])]⟩
    ⟨"Demo"⟩
    ["3fa85f64-5717-4562-b3fc-2c963f66afa6", "00000000-0000-4000-8000-000000000000"]
    rfl (by decide)


/-- C7: the pipeline stages run strictly in the order body validation,
header extraction, outcome responding, domain call — the instrumented
trace, which agrees with `appHandler` on the produced result, is always an
initial segment of `stageOrder` — and the domain call never appears in the
trace of a request whose body failed validation or whose Authorization
header is absent. -/
theorem claim_C7_stage_order (r : ℚ) (f : Fin 16 → Nat) (q : HttpRequest) :
    (appHandlerTrace r f q).1 = appHandler r f q ∧
    (appHandlerTrace r f q).2 = stageOrder.take ((appHandlerTrace r f q).2).length ∧
    (∀ e, createProjectRequestParse q.body = Except.error e →
      Stage.domainCall ∉ (appHandlerTrace r f q).2) ∧
    (lookupHeader q "Authorization" = none →
      Stage.domainCall ∉ (appHandlerTrace r f q).2) := by
  cases hb : createProjectRequestParse q.body with
  | error e =>
    have ht : appHandlerTrace r f q =
        (HandlerResult.response 400 (SentBody.text (renderError e)), [Stage.bodyValidation]) := by
      simp only [appHandlerTrace, hb]
    rw [ht, appHandler_badBody r f q e hb]
    refine ⟨rfl, rfl, ?_, ?_⟩
    · intro e2 _
      show Stage.domainCall ∉ [Stage.bodyValidation]
      decide
    · intro _
      show Stage.domainCall ∉ [Stage.bodyValidation]
      decide
  | ok o =>
    cases hh : lookupHeader q "Authorization" with
    | none =>
      have ht : appHandlerTrace r f q =
          (HandlerResult.response 400 (SentBody.text ("No header " ++ "Authorization")),
            [Stage.bodyValidation, Stage.headerExtraction]) := by
        simp only [appHandlerTrace, hb, hh]
      rw [ht, appHandler_noHeader r f q o hb hh]
      refine ⟨rfl, rfl, ?_, ?_⟩
      · intro e2 he2
        exact Except.noConfusion he2
      · intro _
        show Stage.domainCall ∉ [Stage.bodyValidation, Stage.headerExtraction]
        decide
    | some v =>
      cases hv : userIdFormatParse v with
      | error e =>
        have ht : appHandlerTrace r f q =
            (HandlerResult.raised e,
              [Stage.bodyValidation, Stage.headerExtraction, Stage.outcomeResponding]) := by
          simp only [appHandlerTrace, hb, hh, hv]
        rw [ht, appHandler_raisesToken r f q o v e hb hh hv]
        refine ⟨rfl, rfl, ?_, ?_⟩
        · intro e2 he2
          exact Except.noConfusion he2
        · intro hn
          exact Option.noConfusion hn
      | ok uid =>
        cases hc : createProject r f uid o with
        | error e =>
          have ht : appHandlerTrace r f q = (HandlerResult.raised e, stageOrder) := by
            simp only [appHandlerTrace, hb, hh, hv, hc]
          have ha : appHandler r f q = HandlerResult.raised e := by
            rw [appHandler_withHeader r f q o v hb hh]
            simp only [completeAsJson, outcomeThunk, hv, hc]
          rw [ht, ha]
          refine ⟨rfl, rfl, ?_, ?_⟩
          · intro e2 he2
            exact Except.noConfusion he2
          · intro hn
            exact Option.noConfusion hn
        | ok resp =>
          cases resp with
          | created p =>
            have ht : appHandlerTrace r f q =
                (HandlerResult.response 201 (SentBody.json (projectToJson p)), stageOrder) := by
              simp only [appHandlerTrace, hb, hh, hv, hc]
            have ha : appHandler r f q =
                HandlerResult.response 201 (SentBody.json (projectToJson p)) := by
              rw [appHandler_withHeader r f q o v hb hh]
              simp only [completeAsJson, outcomeThunk, hv, hc]
            rw [ht, ha]
            refine ⟨rfl, rfl, ?_, ?_⟩
            · intro e2 he2
              exact Except.noConfusion he2
            · intro hn
              exact Option.noConfusion hn
          | userNotFound uid2 =>
            have ht : appHandlerTrace r f q =
                (HandlerResult.response 404 (SentBody.text "Sry, no user found"), stageOrder) := by
              simp only [appHandlerTrace, hb, hh, hv, hc]
            have ha : appHandler r f q =
                HandlerResult.response 404 (SentBody.text "Sry, no user found") := by
              rw [appHandler_withHeader r f q o v hb hh]
              simp only [completeAsJson, outcomeThunk, hv, hc]
            rw [ht, ha]
            refine ⟨rfl, rfl, ?_, ?_⟩
            · intro e2 he2
              exact Except.noConfusion he2
            · intro hn
              exact Option.noConfusion hn

/-- C7 witness: a request with an invalid body records only the body
validation stage, agrees with the handler, and never reaches the domain. -/
theorem claim_C7_stage_order_witness :
    (appHandlerTrace 1 (fun _ => 0) ⟨Json.num 7, []⟩).1 =
      appHandler 1 (fun _ => 0) ⟨Json.num 7, []⟩ ∧
    (appHandlerTrace 1 (fun _ => 0) ⟨Json.num 7, []⟩).2 =
      stageOrder.take ((appHandlerTrace 1 (fun _ => 0) ⟨Json.num 7, []⟩).2).length ∧
    Stage.domainCall ∉ (appHandlerTrace 1 (fun _ => 0) ⟨Json.num 7, []⟩).2 := by
  obtain ⟨h1, h2, h3, _⟩ := claim_C7_stage_order 1 (fun _ => 0) ⟨Json.num 7, []⟩
  exact ⟨h1, h2, h3 [⟨[], "invalid_type"⟩] rfl⟩

end TsPoc
